import Mathlib

/-!
Shallow embedding of the transaction/aggregation core of the
Telegram-Bot-Counter repository (Go).  Amounts (Go `float64`) are modelled
as exact rationals `ℚ`; Go maps (`map[string]float64`) are modelled as
association lists built by insert-or-add, with the (randomized) Go map
iteration order over keys made explicit as a permutation parameter wherever
the source iterates over map keys.  Timestamps (`int64`) are `ℤ`.
-/

set_option autoImplicit false

namespace ExpenseBot

/-- Embedding of `models.Transaction` (internal/models/transaction.go). -/
structure Transaction where
  id : String
  amount : ℚ
  author : String
  category : String
  buttonMessageId : String
  confirmationMessageId : String
  createdAt : ℤ
deriving DecidableEq, Repr

/-- Embedding of `models.MonthlyArchive` (internal/models/archive.go). -/
structure MonthlyArchive where
  id : String
  year : ℤ
  month : ℤ
  monthName : String
  totalSpent : ℚ
  totalTransactions : ℕ
  balance : ℚ
  userTotals : List (String × ℚ)
  categoryTotals : List (String × ℚ)
  transactions : List Transaction
  avgTransaction : ℚ
  highestTransaction : ℚ
  lowestTransaction : ℚ
  daysWithSpending : ℕ
  archivedAt : ℤ
deriving DecidableEq, Repr

/-- Wall-clock data consumed by `ArchiveMonthlyData` through `time.Now()`:
its unix seconds together with the formatted fields the code derives from it
(`Format("2006-01")` for the month id, `Year()`, `Month()`,
`Format("January")`). -/
structure Now where
  unix : ℤ
  year : ℤ
  month : ℤ
  monthName : String
  monthID : String
deriving DecidableEq, Repr

/-- Go map write `m[k] += v`: add to the entry for `k` if present, otherwise
insert the pair.  Keys keep their first-insertion position, so key lists
stay duplicate-free. -/
def bump (m : List (String × ℚ)) (k : String) (v : ℚ) : List (String × ℚ) :=
  match m with
  | [] => [(k, v)]
  | (k1, v1) :: rest =>
      if k1 = k then (k1, v1 + v) :: rest else (k1, v1) :: bump rest k v

/-- Go map read `m[k]` (zero value `0.0` when the key is absent). -/
def lookupD (m : List (String × ℚ)) (k : String) : ℚ :=
  match m with
  | [] => 0
  | (k1, v1) :: rest => if k1 = k then v1 else lookupD rest k

/-- Sum of all values stored in a map. -/
def sumValues (m : List (String × ℚ)) : ℚ :=
  (m.map Prod.snd).sum

/-- Keys of a map in insertion order. -/
def keysOf (m : List (String × ℚ)) : List String :=
  m.map Prod.fst

/-- One iteration of the accumulation loop of `DB.CalculateTotals`
(part_001 lines 153-161): `absHalf := math.Abs(tx.Amount / 2)` is added to
`userTotals[tx.Author]`, and when `tx.Category != ""` the loop adds
`math.Abs(tx.Amount)` to `categoryTotals[tx.Category]`. -/
def totalsStep (acc : List (String × ℚ) × List (String × ℚ)) (tx : Transaction) :
    List (String × ℚ) × List (String × ℚ) :=
  (bump acc.1 tx.author |tx.amount / 2|,
   if tx.category ≠ "" then bump acc.2 tx.category |tx.amount| else acc.2)

/-- The `(userTotals, categoryTotals)` pair built by the loop of
`DB.CalculateTotals` over all live transactions. -/
def totalsOf (txs : List Transaction) : List (String × ℚ) × List (String × ℚ) :=
  txs.foldl totalsStep ([], [])

/-- `userTotals` of `DB.CalculateTotals`. -/
def userTotalsOf (txs : List Transaction) : List (String × ℚ) :=
  (totalsOf txs).1

/-- `categoryTotals` of `DB.CalculateTotals`. -/
def categoryTotalsOf (txs : List Transaction) : List (String × ℚ) :=
  (totalsOf txs).2

/-- The distinct contributing users: the key set of `userTotals`, in
insertion order.  The Go code materializes these keys by ranging over the
map (part_001 lines 164-167), in an order Go does not fix; an admissible
iteration order is any permutation of this list. -/
def usersOf (txs : List Transaction) : List String :=
  keysOf (userTotalsOf txs)

/-- Balance computation of `DB.CalculateTotals` (part_001 lines 169-173):
`userTotals[users[0]] - userTotals[users[1]]` when at least two users exist,
`0` otherwise.  `order` is the map-iteration order of the user keys. -/
def balanceOf (txs : List Transaction) (order : List String) : ℚ :=
  match order with
  | u :: v :: _ => lookupD (userTotalsOf txs) u - lookupD (userTotalsOf txs) v
  | _ => 0

/-- Embedding of `DB.CalculateTotals` (part_001 lines 144-176).  Returns
`(balance, categoryTotals, userTotals)` exactly as the Go function does;
`order` makes the unspecified Go map iteration order explicit. -/
def CalculateTotals (txs : List Transaction) (order : List String) :
    ℚ × List (String × ℚ) × List (String × ℚ) :=
  (balanceOf txs order, categoryTotalsOf txs, userTotalsOf txs)

/-- Executable model of the Go standard library `strings.TrimSpace`: drop
whitespace characters from both ends of the string. -/
def trimSpace (s : String) : String :=
  String.mk (((s.data.dropWhile Char.isWhitespace).reverse.dropWhile
    Char.isWhitespace).reverse)

/-- Embedding of `utils.ValidateAmount` (part_002 lines 12-26), parameterized
by the float parser: the Go code delegates parsing to the standard library
`strconv.ParseFloat`, which is outside this repository, so `parseFloat` is an
abstract `String → Option ℚ`.  The code trims whitespace, parses, and rejects
results that are not strictly positive. -/
def ValidateAmount (parseFloat : String → Option ℚ) (text : String) : Option ℚ :=
  match parseFloat (trimSpace text) with
  | none => none
  | some amount => if amount ≤ 0 then none else some amount

/-- Digit-string to natural number; `none` on the empty string or any
non-digit character. -/
def parseDigits (cs : List Char) : Option ℕ :=
  match cs with
  | [] => none
  | _ =>
      cs.foldl
        (fun acc c =>
          acc.bind (fun n => if c.isDigit then some (n * 10 + (c.toNat - 48)) else none))
        (some 0)

/-- Concrete decimal parser used to instantiate the abstract `parseFloat` in
witnesses: optional sign, integer digits, optional fractional digits.  It
models `strconv.ParseFloat` on plain decimal literals. -/
def parseDecimal (s : String) : Option ℚ :=
  let signed : ℚ × List Char :=
    match s.data with
    | '-' :: rest => (-1, rest)
    | '+' :: rest => (1, rest)
    | rest => (1, rest)
  match signed.2.splitOn '.' with
  | [intPart] => (parseDigits intPart).map (fun n => signed.1 * n)
  | [intPart, fracPart] =>
      match parseDigits intPart, parseDigits fracPart with
      | some i, some f =>
          some (signed.1 * ((i : ℚ) + (f : ℚ) / 10 ^ fracPart.length))
      | _, _ => none
  | _ => none

/-- Embedding of `EventHandler.handleNewTransaction` (part_004 lines 91-119)
acting on the transaction store (a Mongo collection, modelled as the list of
its documents).  On a validation failure the handler returns without touching
the store; on success it builds a `Transaction` with `ID` derived from the
message id, the parsed amount, the author, and zero values for the remaining
fields, and `DB.InsertTransaction` stamps `CreatedAt` with the current time
and inserts it. -/
def handleNewTransaction (parseFloat : String → Option ℚ) (store : List Transaction)
    (messageID : ℕ) (author : String) (text : String) (now : ℤ) : List Transaction :=
  match ValidateAmount parseFloat text with
  | none => store
  | some amount =>
      store ++ [{ id := toString messageID, amount := amount, author := author,
                  category := "", buttonMessageId := "", confirmationMessageId := "",
                  createdAt := now }]

/-- Mongo `UpdateOne` with `{$set: {amount: amt}}` on filter `{_id: id}`:
the first document whose `_id` matches has exactly its `amount` field
replaced; every other document is untouched. -/
def updateAmountOne (store : List Transaction) (id : String) (amt : ℚ) : List Transaction :=
  match store with
  | [] => []
  | tx :: rest =>
      if tx.id = id then { tx with amount := amt } :: rest
      else tx :: updateAmountOne rest id amt

/-- Embedding of `EventHandler.handleEditedMessage` (part_004 lines 260-309)
restricted to its effect on the transaction store (the message re-rendering
that follows only calls the chat transport).  The handler returns without
touching the store when the author is not authorized, when the edited text
fails `ValidateAmount`, or when no live transaction matches the message id;
otherwise it updates only the matching record's amount. -/
def handleEditedMessage (parseFloat : String → Option ℚ) (authorized : Bool)
    (store : List Transaction) (messageID : ℕ) (text : String) : List Transaction :=
  if !authorized then store
  else
    match ValidateAmount parseFloat text with
    | none => store
    | some newAmount =>
        match store.find? (fun tx => tx.id = toString messageID) with
        | none => store
        | some _ => updateAmountOne store (toString messageID) newAmount

/-- The sentinel `math.MaxFloat64` used to initialize the lowest-amount scan
(part_001 line 199), as an exact rational. -/
def maxFloat64 : ℚ := (2 ^ 53 - 1) * 2 ^ 971

/-- Go set insertion `uniqueDays[day] = true`, on a duplicate-free list. -/
def insertIfAbsent (l : List String) (s : String) : List String :=
  if s ∈ l then l else l ++ [s]

/-- Accumulators of the statistics loop of `DB.ArchiveMonthlyData`
(part_001 lines 196-215). -/
structure Stats where
  totalSpent : ℚ
  highestAmount : ℚ
  lowestAmount : ℚ
  uniqueDays : List String
deriving DecidableEq, Repr

/-- One iteration of the statistics loop (part_001 lines 202-215):
`amt := math.Abs(tx.Amount)` is summed, compared against the running
highest/lowest, and the transaction's creation day (the code formats
`tx.CreatedAt` with `"2006-01-02"`; `fmtDay` abstracts that formatting) is
collected into the day set. -/
def statsStep (fmtDay : ℤ → String) (acc : Stats) (tx : Transaction) : Stats :=
  let amt := |tx.amount|
  { totalSpent := acc.totalSpent + amt
    highestAmount := if amt > acc.highestAmount then amt else acc.highestAmount
    lowestAmount := if amt < acc.lowestAmount then amt else acc.lowestAmount
    uniqueDays := insertIfAbsent acc.uniqueDays (fmtDay tx.createdAt) }

/-- The statistics loop of `DB.ArchiveMonthlyData`: fold over all
transactions starting from `totalSpent = 0`, `highestAmount = 0`,
`lowestAmount = math.MaxFloat64`, empty day set. -/
def statsOf (fmtDay : ℤ → String) (txs : List Transaction) : Stats :=
  txs.foldl (statsStep fmtDay) ⟨0, 0, maxFloat64, []⟩

/-- The archive store (Mongo collection `monthly_archives`), as the list of
its `(_id, document)` pairs. -/
abbrev ArchiveStore := List (String × MonthlyArchive)

/-- Mongo `ReplaceOne` with `SetUpsert(true)` on filter `{_id: id}`
(part_001 lines 241-247): replace the first document whose `_id` matches,
or append the new document when none does. -/
def upsertReplace (store : ArchiveStore) (id : String) (a : MonthlyArchive) : ArchiveStore :=
  match store with
  | [] => [(id, a)]
  | (k, v) :: rest =>
      if k = id then (id, a) :: rest else (k, v) :: upsertReplace rest id a

/-- Number of archive documents stored under a given `_id`. -/
def countKey (store : ArchiveStore) (id : String) : ℕ :=
  (store.filter (fun p => p.1 = id)).length

/-- The archive document built by `DB.ArchiveMonthlyData` (part_001 lines
219-239) from a non-empty live transaction set: the balance and totals come
from the inner `CalculateTotals` call, the remaining statistics from the
scan loop, the month identification from the wall clock. -/
def archiveOf (txs : List Transaction) (order : List String) (now : Now)
    (fmtDay : ℤ → String) : MonthlyArchive :=
  { id := now.monthID
    year := now.year
    month := now.month
    monthName := now.monthName
    totalSpent := (statsOf fmtDay txs).totalSpent
    totalTransactions := txs.length
    balance := (CalculateTotals txs order).1
    userTotals := (CalculateTotals txs order).2.2
    categoryTotals := (CalculateTotals txs order).2.1
    transactions := txs
    avgTransaction := (statsOf fmtDay txs).totalSpent / (txs.length : ℚ)
    highestTransaction := (statsOf fmtDay txs).highestAmount
    lowestTransaction := (statsOf fmtDay txs).lowestAmount
    daysWithSpending := (statsOf fmtDay txs).uniqueDays.length
    archivedAt := now.unix }

/-- Embedding of `DB.ArchiveMonthlyData` (part_001 lines 178-250) on its
success path through the store reads: `txs` is the live transaction set
returned by `GetAllTransactions`, `order` the map-iteration order used by the
inner `CalculateTotals` call, `now` the wall clock, `fmtDay` the
day-formatting function, and `store` the archive collection.  An empty live
set is refused with the error `"no transactions to archive"` before anything
is written; otherwise the archive document is built and upserted keyed by the
month id. -/
def ArchiveMonthlyData (txs : List Transaction) (order : List String) (now : Now)
    (fmtDay : ℤ → String) (store : ArchiveStore) :
    Except String MonthlyArchive × ArchiveStore :=
  if txs = [] then (Except.error "no transactions to archive", store)
  else
    let archive := archiveOf txs order now fmtDay
    (Except.ok archive, upsertReplace store now.monthID archive)

/-- Observable outcome of one run of `CommandHandler.MonthlyReset`
(part_003 lines 260-450), tracking which steps were reached. -/
structure ResetOutcome where
  earlyReturn : Bool
  reportSent : Bool
  exportAttempted : Bool
  exportWarningSent : Bool
  deleteAttempted : Bool
  deleteWarningSent : Bool
deriving DecidableEq, Repr

/-- Embedding of the control flow of `CommandHandler.MonthlyReset`
(part_003 lines 260-450).  `archiveResult` is what `safeArchiveData` leaves
in `archive` (`none` on any archive failure, including `NoTransactions` and
store failures); `fallbackTotalsOk` is whether the fallback
`CalculateTotals` call succeeds when the archive failed; `exportOk` is
whether `safeExportCSV` succeeds (its failures are caught inside it and only
produce warning messages); `deleteOk` is whether `DeleteAllTransactions`
succeeds.  With a failed archive and a failed fallback recomputation the Go
code returns at line 292 before the report, the export, and the delete. -/
def MonthlyReset (archiveResult : Option MonthlyArchive) (fallbackTotalsOk : Bool)
    (exportOk : Bool) (deleteOk : Bool) : ResetOutcome :=
  match archiveResult with
  | some _ =>
      { earlyReturn := false
        reportSent := true
        exportAttempted := true
        exportWarningSent := !exportOk
        deleteAttempted := true
        deleteWarningSent := !deleteOk }
  | none =>
      if fallbackTotalsOk then
        { earlyReturn := false
          reportSent := true
          exportAttempted := false
          exportWarningSent := false
          deleteAttempted := true
          deleteWarningSent := !deleteOk }
      else
        { earlyReturn := true
          reportSent := false
          exportAttempted := false
          exportWarningSent := false
          deleteAttempted := false
          deleteWarningSent := false }

/-- How a month-over-month growth figure is rendered: a computed percentage,
the literal `"N/A"` string, or the artifact of a floating-point division by
zero (`±Inf`/`NaN` formatted into the output). -/
inductive GrowthCell where
  | percent (q : ℚ)
  | na
  | divByZeroArtifact
deriving DecidableEq, Repr

/-- The growth figure of `utils.GenerateComparisonCSV` (csv.go lines
227-235): `((current - previous) / previous) * 100` guarded by
`previous != 0`, with `"N/A"` in the zero case. -/
def csvGrowthCell (current previous : ℚ) : GrowthCell :=
  if previous ≠ 0 then GrowthCell.percent ((current - previous) / previous * 100)
  else GrowthCell.na

/-- One growth-rate row of `utils.GenerateComparisonCSV` (csv.go lines
212-240): for each `i` from `1`, a cell comparing `archives[i]` (current)
against `archives[i-1]` (previous) under the metric selector `f`. -/
def growthRow (f : MonthlyArchive → ℚ) : List MonthlyArchive → List GrowthCell
  | a :: b :: rest => csvGrowthCell (f b) (f a) :: growthRow f (b :: rest)
  | _ => []

/-- The growth-rates section of `utils.GenerateComparisonCSV` (csv.go lines
195-241): when more than one archive is given, one row per metric in the
order Total Spent, Total Transactions, Average Transaction. -/
def comparisonGrowthSection (archives : List MonthlyArchive) : List (List GrowthCell) :=
  if archives.length > 1 then
    [growthRow (fun a => a.totalSpent) archives,
     growthRow (fun a => (a.totalTransactions : ℚ)) archives,
     growthRow (fun a => a.avgTransaction) archives]
  else []

/-- The month-over-month spending figure rendered by
`CommandHandler.SendMonthlyComparison` (part_003 lines 546-561):
`spendingPercent := (spendingChange / previous.TotalSpent) * 100` is computed
with no zero guard, so a zero previous total is formatted as the artifact of
a float division by zero. -/
def sendMonthlySpendingPercent (current previous : MonthlyArchive) : GrowthCell :=
  if previous.totalSpent = 0 then GrowthCell.divByZeroArtifact
  else
    GrowthCell.percent
      ((current.totalSpent - previous.totalSpent) / previous.totalSpent * 100)

/-- Concrete sample data for evaluating the theorems: two transactions by
`"alice"` (one uncategorized) and one by `"bob"`. -/
def sampleTxs : List Transaction :=
  [⟨"1", 20, "alice", "", "", "", 0⟩,
   ⟨"2", 6, "alice", "Groceries", "", "", 0⟩,
   ⟨"3", -10, "bob", "Groceries", "", "", 0⟩]

/-- Concrete sample data matching the spec's worked example: two users with
amounts `[20, -10]`. -/
def pairTxs : List Transaction :=
  [⟨"1", 20, "alice", "Groceries", "", "", 100⟩,
   ⟨"2", -10, "bob", "Groceries", "", "", 200⟩]

/-- Concrete wall-clock sample. -/
def sampleNow : Now :=
  { unix := 1735689600, year := 2025, month := 1, monthName := "January",
    monthID := "2025-01" }

/-- Concrete day-formatting sample (the theorems hold for every formatter). -/
def sampleFmtDay (t : ℤ) : String :=
  toString (t / 86400)

/-- Concrete sample transaction for the edit scenario. -/
def editTx : Transaction :=
  { id := "7", amount := 20, author := "alice", category := "Groceries",
    buttonMessageId := "100", confirmationMessageId := "", createdAt := 50 }

/-- Concrete sample archive with all metrics zero, as a previous month for
the growth-rate comparisons. -/
def zeroArchive : MonthlyArchive :=
  { id := "2024-12", year := 2024, month := 12, monthName := "December",
    totalSpent := 0, totalTransactions := 0, balance := 0, userTotals := [],
    categoryTotals := [], transactions := [], avgTransaction := 0,
    highestTransaction := 0, lowestTransaction := 0, daysWithSpending := 0,
    archivedAt := 0 }

/-- Concrete sample archive with nonzero metrics, as a current month for the
growth-rate comparisons. -/
def janArchive : MonthlyArchive :=
  { id := "2025-01", year := 2025, month := 1, monthName := "January",
    totalSpent := 100, totalTransactions := 4, balance := 0,
    userTotals := [("alice", 50)], categoryTotals := [("Groceries", 100)],
    transactions := [], avgTransaction := 25, highestTransaction := 40,
    lowestTransaction := 10, daysWithSpending := 3, archivedAt := 100 }

theorem lookupD_bump (m : List (String × ℚ)) (k k' : String) (v : ℚ) :
    lookupD (bump m k v) k' = lookupD m k' + if k = k' then v else 0 := by
  induction m with
  | nil => simp [bump, lookupD]
  | cons p rest ih =>
      obtain ⟨k1, v1⟩ := p
      simp only [bump]
      by_cases h1 : k1 = k
      · subst h1
        rw [if_pos rfl]
        by_cases h2 : k1 = k' <;> simp [lookupD, h2]
      · rw [if_neg h1]
        by_cases h2 : k1 = k'
        · have hkk : ¬(k = k') := fun he => h1 (h2.trans he.symm)
          simp [lookupD, h2, hkk]
        · simp [lookupD, h2, ih]

theorem sumValues_bump (m : List (String × ℚ)) (k : String) (v : ℚ) :
    sumValues (bump m k v) = sumValues m + v := by
  induction m with
  | nil => simp [bump, sumValues]
  | cons p rest ih =>
      obtain ⟨k1, v1⟩ := p
      by_cases h : k1 = k
      · simp [bump, sumValues, h]; ring
      · simp only [bump, if_neg h]
        simp [sumValues] at ih ⊢
        rw [ih]; ring

theorem lookupD_foldl_user (txs : List Transaction) :
    ∀ acc : List (String × ℚ) × List (String × ℚ), ∀ u : String,
      lookupD (txs.foldl totalsStep acc).1 u
        = lookupD acc.1 u
          + ((txs.filter (fun tx => tx.author = u)).map (fun tx => |tx.amount / 2|)).sum := by
  induction txs with
  | nil => intro acc u; simp
  | cons tx rest ih =>
      intro acc u
      rw [List.foldl_cons, ih]
      by_cases h : tx.author = u
      · simp [List.filter_cons, h, totalsStep, lookupD_bump]
        ring
      · simp [List.filter_cons, h, totalsStep, lookupD_bump]

theorem lookupD_foldl_category (txs : List Transaction) :
    ∀ acc : List (String × ℚ) × List (String × ℚ), ∀ c : String, c ≠ "" →
      lookupD (txs.foldl totalsStep acc).2 c
        = lookupD acc.2 c
          + ((txs.filter (fun tx => tx.category = c)).map (fun tx => |tx.amount|)).sum := by
  induction txs with
  | nil => intro acc c _; simp
  | cons tx rest ih =>
      intro acc c hc
      rw [List.foldl_cons, ih _ _ hc]
      by_cases h : tx.category = c
      · have hne : tx.category ≠ "" := h ▸ hc
        simp [List.filter_cons, h, totalsStep, hne, hc, lookupD_bump]
        ring
      · by_cases hne : tx.category = ""
        · simp [List.filter_cons, h, totalsStep, hne, Ne.symm hc]
        · simp [List.filter_cons, h, totalsStep, hne, lookupD_bump]

theorem lookupD_foldl_category_empty (txs : List Transaction) :
    ∀ acc : List (String × ℚ) × List (String × ℚ),
      lookupD acc.2 "" = 0 → lookupD (txs.foldl totalsStep acc).2 "" = 0 := by
  induction txs with
  | nil => intro acc h; simpa using h
  | cons tx rest ih =>
      intro acc h
      simp only [List.foldl_cons]
      apply ih
      by_cases hne : tx.category = ""
      · simpa [totalsStep, hne] using h
      · simp [totalsStep, hne, lookupD_bump, h]

/-- Claim C1: over any set of live transactions, `CalculateTotals`
accumulates each user's contribution as `abs(amount) / 2` into
`user_totals[author]`, accumulates `abs(amount)` into
`category_totals[category]` exactly for the transactions whose category is
set to that category, and gives uncategorized transactions no category
bucket (the empty category key reads as zero) while they still count in the
user totals. -/
theorem calculateTotals_accumulation (txs : List Transaction) (order : List String)
    (u c : String) (hc : c ≠ "") :
    lookupD (CalculateTotals txs order).2.2 u
      = ((txs.filter (fun tx => tx.author = u)).map (fun tx => |tx.amount| / 2)).sum
    ∧ lookupD (CalculateTotals txs order).2.1 c
      = ((txs.filter (fun tx => tx.category = c)).map (fun tx => |tx.amount|)).sum
    ∧ lookupD (CalculateTotals txs order).2.1 "" = 0 := by
  refine ⟨?_, ?_, ?_⟩
  · have h := lookupD_foldl_user txs ([], []) u
    simp only [CalculateTotals, userTotalsOf, totalsOf]
    rw [h]
    simp only [lookupD, zero_add]
    congr 1
    apply List.map_congr_left
    intro tx _
    rw [abs_div]
    norm_num
  · have h := lookupD_foldl_category txs ([], []) c hc
    simp only [CalculateTotals, categoryTotalsOf, totalsOf]
    rw [h]
    simp [lookupD]
  · have h := lookupD_foldl_category_empty txs ([], []) (by simp [lookupD])
    simpa only [CalculateTotals, categoryTotalsOf, totalsOf] using h

/-- Witness for `calculateTotals_accumulation` at `sampleTxs`: alice's user
total is `|20|/2 + |6|/2 = 13`, the `"Groceries"` bucket is `6 + 10 = 16`,
and the empty category reads as zero. -/
theorem calculateTotals_accumulation_witness :
    (("Groceries" : String) ≠ "")
    ∧ lookupD (CalculateTotals sampleTxs ["alice", "bob"]).2.2 "alice" = 13
    ∧ lookupD (CalculateTotals sampleTxs ["alice", "bob"]).2.1 "Groceries" = 16
    ∧ lookupD (CalculateTotals sampleTxs ["alice", "bob"]).2.1 "" = 0 := by
  have h := calculateTotals_accumulation sampleTxs ["alice", "bob"]
    "alice" "Groceries" (by decide)
  refine ⟨by decide, ?_, ?_, h.2.2⟩
  · rw [h.1]; simp [sampleTxs]; norm_num
  · rw [h.2.1]; simp [sampleTxs]; norm_num

theorem perm_two_cases {α : Type} (l : List α) (a b : α) (h : l.Perm [a, b]) :
    l = [a, b] ∨ l = [b, a] := by
  have hlen : l.length = 2 := by simpa using h.length_eq
  obtain ⟨x, y, rfl⟩ : ∃ x y, l = [x, y] := by
    match l, hlen with
    | [x, y], _ => exact ⟨x, y, rfl⟩
  have hx : x = a ∨ x = b := by
    have hm : x ∈ [a, b] := h.subset (by simp)
    simpa using hm
  cases hx with
  | inl hxa =>
      subst hxa
      have h2 : [y].Perm [b] := h.cons_inv
      have : y = b := by simpa using List.perm_singleton.mp h2
      subst this
      exact Or.inl rfl
  | inr hxb =>
      have hswap : ([a, b] : List α).Perm [b, a] := List.Perm.swap b a []
      have h' : ([x, y] : List α).Perm [b, a] := h.trans hswap
      rw [hxb] at h'
      have h2 : [y].Perm [a] := h'.cons_inv
      have hy : y = a := by simpa using List.perm_singleton.mp h2
      rw [hxb, hy]
      exact Or.inr rfl

/-- Claim C2: under any admissible map-iteration order, `CalculateTotals`
returns balance `0` when fewer than two distinct users have contributed, and
with exactly two distinct users the balance is the difference of the two
users' totals, in one of the two directions depending on which user the
iteration order yields first. -/
theorem calculateTotals_balance (txs : List Transaction) (order : List String)
    (hord : order.Perm (usersOf txs)) :
    ((usersOf txs).length < 2 → (CalculateTotals txs order).1 = 0)
    ∧ (∀ u v : String, (usersOf txs).Perm [u, v] →
        (CalculateTotals txs order).1
            = lookupD (userTotalsOf txs) u - lookupD (userTotalsOf txs) v
        ∨ (CalculateTotals txs order).1
            = lookupD (userTotalsOf txs) v - lookupD (userTotalsOf txs) u) := by
  constructor
  · intro hlen
    have hlo : order.length < 2 := hord.length_eq ▸ hlen
    match order, hlo with
    | [], _ => rfl
    | [u], _ => rfl
  · intro u v huv
    rcases perm_two_cases order u v (hord.trans huv) with h | h
    · subst h; exact Or.inl rfl
    · subst h; exact Or.inr rfl

/-- Witness for `calculateTotals_balance` at the spec's worked example
(`pairTxs`, amounts 20 and -10 by two users), with the iteration order that
yields `"bob"` first. -/
theorem calculateTotals_balance_witness :
    (["bob", "alice"] : List String).Perm (usersOf pairTxs)
    ∧ (usersOf pairTxs).Perm ["alice", "bob"]
    ∧ ((CalculateTotals pairTxs ["bob", "alice"]).1
          = lookupD (userTotalsOf pairTxs) "alice" - lookupD (userTotalsOf pairTxs) "bob"
        ∨ (CalculateTotals pairTxs ["bob", "alice"]).1
          = lookupD (userTotalsOf pairTxs) "bob" - lookupD (userTotalsOf pairTxs) "alice") := by
  refine ⟨by decide, by decide, ?_⟩
  exact (calculateTotals_balance pairTxs ["bob", "alice"] (by decide)).2
    "alice" "bob" (by decide)

/-- Counterexample to claim C9: over the very same transaction set
(`pairTxs`, with exactly two distinct contributing users) two admissible
map-iteration orders produce balances that differ in sign, so the balance
returned by `CalculateTotals` is not a function of the transaction set
alone — Go does not fix the iteration order of `userTotals` across calls. -/
theorem balance_sign_not_deterministic :
    (["alice", "bob"] : List String).Perm (usersOf pairTxs)
    ∧ (["bob", "alice"] : List String).Perm (usersOf pairTxs)
    ∧ (usersOf pairTxs).length = 2
    ∧ (CalculateTotals pairTxs ["alice", "bob"]).1
        ≠ (CalculateTotals pairTxs ["bob", "alice"]).1 := by
  refine ⟨by decide, by decide, by decide, ?_⟩
  have e1 : |(20 : ℚ) / 2| = 10 := by
    rw [abs_of_nonneg] <;> norm_num
  have e2 : |(-10 : ℚ) / 2| = 5 := by
    rw [abs_of_nonpos] <;> norm_num
  have hgoal : ((10 : ℚ) - 5) ≠ (5 - 10) := by norm_num
  simpa [CalculateTotals, balanceOf, userTotalsOf, totalsOf, totalsStep, bump,
    lookupD, pairTxs, e1, e2] using hgoal

/-- Claim C9 amended: with exactly two distinct contributing users the
absolute value of the balance is determined by the transaction set — only
the sign depends on the map-iteration order. -/
theorem balance_abs_deterministic (txs : List Transaction) (o₁ o₂ : List String)
    (h₁ : o₁.Perm (usersOf txs)) (h₂ : o₂.Perm (usersOf txs))
    (hlen : (usersOf txs).length = 2) :
    |(CalculateTotals txs o₁).1| = |(CalculateTotals txs o₂).1| := by
  obtain ⟨u, v, huv⟩ : ∃ u v, usersOf txs = [u, v] := by
    match h : usersOf txs, hlen with
    | [u, v], _ => exact ⟨u, v, rfl⟩
  have hp : (usersOf txs).Perm [u, v] := huv ▸ List.Perm.refl _
  have c₁ := perm_two_cases o₁ u v (h₁.trans hp)
  have c₂ := perm_two_cases o₂ u v (h₂.trans hp)
  have habs : ∀ o : List String, o = [u, v] ∨ o = [v, u] →
      |(CalculateTotals txs o).1|
        = |lookupD (userTotalsOf txs) u - lookupD (userTotalsOf txs) v| := by
    rintro o (rfl | rfl)
    · rfl
    · simpa [CalculateTotals, balanceOf] using
        abs_sub_comm (lookupD (userTotalsOf txs) v) (lookupD (userTotalsOf txs) u)
  rw [habs o₁ c₁, habs o₂ c₂]

/-- Witness for `balance_abs_deterministic` at `pairTxs` with the two
opposite iteration orders. -/
theorem balance_abs_deterministic_witness :
    (["alice", "bob"] : List String).Perm (usersOf pairTxs)
    ∧ (["bob", "alice"] : List String).Perm (usersOf pairTxs)
    ∧ (usersOf pairTxs).length = 2
    ∧ |(CalculateTotals pairTxs ["alice", "bob"]).1|
        = |(CalculateTotals pairTxs ["bob", "alice"]).1| :=
  ⟨by decide, by decide, by decide,
   balance_abs_deterministic pairTxs ["alice", "bob"] ["bob", "alice"]
     (by decide) (by decide) (by decide)⟩

/-- Claim C3: `ReportAmount` creates a record exactly when the
whitespace-trimmed input parses as a strictly positive decimal; the created
record is a single appended transaction carrying the parsed (strictly
positive) amount with the category unset, and for non-parseable or
non-positive inputs the store is unchanged. -/
theorem reportAmount_spec (parseFloat : String → Option ℚ) (store : List Transaction)
    (messageID : ℕ) (author text : String) (now : ℤ) :
    (∀ a : ℚ, parseFloat (trimSpace text) = some a → 0 < a →
        handleNewTransaction parseFloat store messageID author text now
          = store ++ [{ id := toString messageID, amount := a, author := author,
                        category := "", buttonMessageId := "",
                        confirmationMessageId := "", createdAt := now }])
    ∧ (∀ a : ℚ, parseFloat (trimSpace text) = some a → a ≤ 0 →
        handleNewTransaction parseFloat store messageID author text now = store)
    ∧ (parseFloat (trimSpace text) = none →
        handleNewTransaction parseFloat store messageID author text now = store) := by
  refine ⟨?_, ?_, ?_⟩
  · intro a hp hpos
    have hVA : ValidateAmount parseFloat text = some a := by
      simp [ValidateAmount, hp, hpos.not_le]
    simp [handleNewTransaction, hVA]
  · intro a hp hle
    have hVA : ValidateAmount parseFloat text = none := by
      simp [ValidateAmount, hp, hle]
    simp [handleNewTransaction, hVA]
  · intro hp
    have hVA : ValidateAmount parseFloat text = none := by
      simp [ValidateAmount, hp]
    simp [handleNewTransaction, hVA]

/-- Witness for `reportAmount_spec`: reporting `" 25.50 "` on an empty store
appends exactly one record with the parsed amount `25.50 = 51/2` and an
unset category. -/
theorem reportAmount_spec_witness :
    parseDecimal (trimSpace " 25.50 ")
        = some (1 * (((25 : ℕ) : ℚ) + ((50 : ℕ) : ℚ) / 10 ^ 2))
    ∧ (0 : ℚ) < 1 * (((25 : ℕ) : ℚ) + ((50 : ℕ) : ℚ) / 10 ^ 2)
    ∧ (1 * (((25 : ℕ) : ℚ) + ((50 : ℕ) : ℚ) / 10 ^ 2) = 51 / 2)
    ∧ handleNewTransaction parseDecimal [] 7 "alice" " 25.50 " 100
        = [{ id := "7", amount := 1 * (((25 : ℕ) : ℚ) + ((50 : ℕ) : ℚ) / 10 ^ 2),
             author := "alice", category := "", buttonMessageId := "",
             confirmationMessageId := "", createdAt := 100 }] := by
  refine ⟨rfl, by norm_num, by norm_num, ?_⟩
  have h := (reportAmount_spec parseDecimal [] 7 "alice" " 25.50 " 100).1
    (1 * (((25 : ℕ) : ℚ) + ((50 : ℕ) : ℚ) / 10 ^ 2)) rfl (by norm_num)
  simpa using h

theorem updateAmountOne_frame (id : String) (amt : ℚ) (store : List Transaction) :
    List.Forall₂
      (fun (old new : Transaction) =>
        new.id = old.id ∧ new.author = old.author ∧ new.category = old.category
        ∧ new.buttonMessageId = old.buttonMessageId
        ∧ new.confirmationMessageId = old.confirmationMessageId
        ∧ new.createdAt = old.createdAt
        ∧ (old.id ≠ id → new.amount = old.amount))
      store (updateAmountOne store id amt) := by
  induction store with
  | nil => exact List.Forall₂.nil
  | cons tx rest ih =>
      by_cases h : tx.id = id
      · simp only [updateAmountOne, if_pos h]
        refine List.Forall₂.cons ?_ ?_
        · exact ⟨rfl, rfl, rfl, rfl, rfl, rfl, fun hne => absurd h hne⟩
        · refine List.forall₂_same.mpr ?_
          intro x _
          exact ⟨rfl, rfl, rfl, rfl, rfl, rfl, fun _ => rfl⟩
      · simp only [updateAmountOne, if_neg h]
        exact List.Forall₂.cons ⟨rfl, rfl, rfl, rfl, rfl, rfl, fun _ => rfl⟩ ih

theorem find_updateAmountOne (id : String) (amt : ℚ) (store : List Transaction)
    (tx0 : Transaction)
    (h : store.find? (fun tx => tx.id = id) = some tx0) :
    (updateAmountOne store id amt).find? (fun tx => tx.id = id)
      = some { tx0 with amount := amt } := by
  induction store with
  | nil => simp [List.find?] at h
  | cons tx rest ih =>
      by_cases hid : tx.id = id
      · simp [List.find?, hid] at h
        subst h
        simp [updateAmountOne, List.find?, hid]
      · simp [List.find?, hid] at h
        simpa [updateAmountOne, List.find?, hid] using ih h

/-- Claim C8: an edited message leaves the transaction store completely
unchanged when the new text fails validation or when no live record matches
the message id; when a record exists and the text parses as a positive
amount, only that record's amount is replaced — its identity, author,
category, message linkage and creation time are untouched, as is every other
record. -/
theorem editAmount_frame (parseFloat : String → Option ℚ) (authorized : Bool)
    (store : List Transaction) (messageID : ℕ) (text : String) (a : ℚ)
    (tx0 : Transaction) :
    (ValidateAmount parseFloat text = none →
        handleEditedMessage parseFloat authorized store messageID text = store)
    ∧ (store.find? (fun tx => tx.id = toString messageID) = none →
        handleEditedMessage parseFloat authorized store messageID text = store)
    ∧ (authorized = true →
       ValidateAmount parseFloat text = some a →
       store.find? (fun tx => tx.id = toString messageID) = some tx0 →
        handleEditedMessage parseFloat authorized store messageID text
            = updateAmountOne store (toString messageID) a
        ∧ List.Forall₂
            (fun (old new : Transaction) =>
              new.id = old.id ∧ new.author = old.author ∧ new.category = old.category
              ∧ new.buttonMessageId = old.buttonMessageId
              ∧ new.confirmationMessageId = old.confirmationMessageId
              ∧ new.createdAt = old.createdAt
              ∧ (old.id ≠ toString messageID → new.amount = old.amount))
            store (handleEditedMessage parseFloat authorized store messageID text)
        ∧ (handleEditedMessage parseFloat authorized store messageID text).find?
              (fun tx => tx.id = toString messageID)
            = some { tx0 with amount := a }) := by
  refine ⟨?_, ?_, ?_⟩
  · intro hVA
    cases authorized <;> simp [handleEditedMessage, hVA]
  · intro hfind
    cases authorized <;> simp [handleEditedMessage, hfind]
    cases hVA : ValidateAmount parseFloat text <;> simp [hVA, hfind]
  · intro hauth hVA hfind
    subst hauth
    have hrun : handleEditedMessage parseFloat true store messageID text
        = updateAmountOne store (toString messageID) a := by
      simp [handleEditedMessage, hVA, hfind]
    refine ⟨hrun, ?_, ?_⟩
    · rw [hrun]
      exact updateAmountOne_frame (toString messageID) a store
    · rw [hrun]
      exact find_updateAmountOne (toString messageID) a store tx0 hfind

/-- Witness for `editAmount_frame`: editing the message for transaction
`"7"` to `"30"` updates that record's amount and nothing else. -/
theorem editAmount_frame_witness :
    ValidateAmount parseDecimal "30" = some (1 * ((30 : ℕ) : ℚ))
    ∧ ([editTx] : List Transaction).find? (fun tx => tx.id = toString (7 : ℕ))
        = some editTx
    ∧ (handleEditedMessage parseDecimal true [editTx] 7 "30"
        = updateAmountOne [editTx] (toString (7 : ℕ)) (1 * ((30 : ℕ) : ℚ))
      ∧ List.Forall₂
          (fun (old new : Transaction) =>
            new.id = old.id ∧ new.author = old.author ∧ new.category = old.category
            ∧ new.buttonMessageId = old.buttonMessageId
            ∧ new.confirmationMessageId = old.confirmationMessageId
            ∧ new.createdAt = old.createdAt
            ∧ (old.id ≠ toString (7 : ℕ) → new.amount = old.amount))
          [editTx] (handleEditedMessage parseDecimal true [editTx] 7 "30")
      ∧ (handleEditedMessage parseDecimal true [editTx] 7 "30").find?
            (fun tx => tx.id = toString (7 : ℕ))
          = some { editTx with amount := 1 * ((30 : ℕ) : ℚ) }) := by
  have hVA : ValidateAmount parseDecimal "30" = some (1 * ((30 : ℕ) : ℚ)) := by
    have hp : parseDecimal (trimSpace "30") = some (1 * ((30 : ℕ) : ℚ)) := rfl
    simp only [ValidateAmount, hp]
    rw [if_neg (by norm_num)]
  have hfind : ([editTx] : List Transaction).find? (fun tx => tx.id = toString (7 : ℕ))
      = some editTx := by
    have h7 : toString (7 : ℕ) = "7" := by decide
    simp [List.find?, editTx, h7]
  exact ⟨hVA, hfind,
    (editAmount_frame parseDecimal true [editTx] 7 "30"
      (1 * ((30 : ℕ) : ℚ)) editTx).2.2 rfl hVA hfind⟩

/-- Claim C4: archiving with an empty live transaction set fails with the
`NoTransactions` error and leaves the archive store untouched — no archive
of zeros is recorded. -/
theorem archiveMonthlyData_empty_refused (order : List String) (now : Now)
    (fmtDay : ℤ → String) (store : ArchiveStore) :
    ArchiveMonthlyData [] order now fmtDay store
      = (Except.error "no transactions to archive", store) := rfl

theorem upsertReplace_upsertReplace (store : ArchiveStore) (id : String)
    (a₁ a₂ : MonthlyArchive) :
    upsertReplace (upsertReplace store id a₁) id a₂ = upsertReplace store id a₂ := by
  induction store with
  | nil => simp [upsertReplace]
  | cons p rest ih =>
      obtain ⟨k, v⟩ := p
      by_cases h : k = id
      · simp [upsertReplace, h]
      · simp [upsertReplace, h, ih]

theorem countKey_cons (k : String) (v : MonthlyArchive) (rest : ArchiveStore)
    (id : String) :
    countKey ((k, v) :: rest) id = (if k = id then 1 else 0) + countKey rest id := by
  by_cases h : k = id
  · simp [countKey, List.filter_cons, h]
    omega
  · simp [countKey, List.filter_cons, h]

theorem countKey_upsertReplace (store : ArchiveStore) (id : String)
    (a : MonthlyArchive) (h : countKey store id ≤ 1) :
    countKey (upsertReplace store id a) id = 1 := by
  induction store with
  | nil => simp [upsertReplace, countKey, List.filter]
  | cons p rest ih =>
      obtain ⟨k, v⟩ := p
      by_cases hk : k = id
      · rw [countKey_cons, if_pos hk] at h
        have hrest : countKey rest id = 0 := by omega
        simp [upsertReplace, hk, countKey_cons, hrest]
      · rw [countKey_cons, if_neg hk] at h
        have h' : countKey rest id ≤ 1 := by omega
        simp [upsertReplace, hk, countKey_cons, ih h']

/-- Claim C5: running the archive step twice within the same month over the
same live data leaves the store in the same state as a single (second) run —
the second upsert overwrites the first — and exactly one archive document is
stored under the month identifier. -/
theorem archive_upsert_idempotent (txs : List Transaction) (o₁ o₂ : List String)
    (n₁ n₂ : Now) (fmtDay : ℤ → String) (store : ArchiveStore)
    (htx : txs ≠ []) (hm : n₁.monthID = n₂.monthID)
    (hstore : countKey store n₂.monthID ≤ 1) :
    (ArchiveMonthlyData txs o₂ n₂ fmtDay
        (ArchiveMonthlyData txs o₁ n₁ fmtDay store).2).2
      = (ArchiveMonthlyData txs o₂ n₂ fmtDay store).2
    ∧ countKey
        (ArchiveMonthlyData txs o₂ n₂ fmtDay
          (ArchiveMonthlyData txs o₁ n₁ fmtDay store).2).2 n₂.monthID = 1 := by
  have e : ∀ (o : List String) (n : Now) (s : ArchiveStore),
      (ArchiveMonthlyData txs o n fmtDay s).2
        = upsertReplace s n.monthID (archiveOf txs o n fmtDay) := by
    intro o n s
    simp [ArchiveMonthlyData, htx]
  rw [e, e, e, hm]
  refine ⟨upsertReplace_upsertReplace store n₂.monthID _ _, ?_⟩
  apply countKey_upsertReplace
  rw [countKey_upsertReplace store n₂.monthID _ hstore]

/-- Witness for `archive_upsert_idempotent` at `pairTxs` with an initially
empty archive store and two runs in January 2025. -/
theorem archive_upsert_idempotent_witness :
    pairTxs ≠ []
    ∧ sampleNow.monthID = sampleNow.monthID
    ∧ countKey [] sampleNow.monthID ≤ 1
    ∧ ((ArchiveMonthlyData pairTxs ["alice", "bob"] sampleNow sampleFmtDay
          (ArchiveMonthlyData pairTxs ["bob", "alice"] sampleNow sampleFmtDay []).2).2
        = (ArchiveMonthlyData pairTxs ["alice", "bob"] sampleNow sampleFmtDay []).2
      ∧ countKey
          (ArchiveMonthlyData pairTxs ["alice", "bob"] sampleNow sampleFmtDay
            (ArchiveMonthlyData pairTxs ["bob", "alice"] sampleNow sampleFmtDay
              []).2).2 sampleNow.monthID = 1) :=
  ⟨by decide, rfl, by decide,
   archive_upsert_idempotent pairTxs ["bob", "alice"] ["alice", "bob"]
     sampleNow sampleNow sampleFmtDay [] (by decide) rfl (by decide)⟩

theorem statsOf_totalSpent_aux (fmtDay : ℤ → String) (txs : List Transaction) :
    ∀ acc : Stats,
      (txs.foldl (statsStep fmtDay) acc).totalSpent
        = acc.totalSpent + (txs.map (fun tx => |tx.amount|)).sum := by
  induction txs with
  | nil => intro acc; simp
  | cons tx rest ih =>
      intro acc
      rw [List.foldl_cons, ih]
      simp [statsStep]
      ring

theorem sumValues_foldl_user (txs : List Transaction) :
    ∀ acc : List (String × ℚ) × List (String × ℚ),
      sumValues (txs.foldl totalsStep acc).1
        = sumValues acc.1 + (txs.map (fun tx => |tx.amount / 2|)).sum := by
  induction txs with
  | nil => intro acc; simp
  | cons tx rest ih =>
      intro acc
      rw [List.foldl_cons, ih]
      simp [totalsStep, sumValues_bump]
      ring

theorem sum_map_abs_half (txs : List Transaction) :
    (txs.map (fun tx => |tx.amount / 2|)).sum
      = (txs.map (fun tx => |tx.amount|)).sum / 2 := by
  have habs : (fun (tx : Transaction) => |tx.amount / 2|)
      = fun tx => |tx.amount| / 2 := by
    funext tx
    rw [abs_div, abs_two]
  rw [habs]
  induction txs with
  | nil => simp
  | cons tx rest ih =>
      rw [List.map_cons, List.sum_cons, List.map_cons, List.sum_cons, ih]
      ring

/-- Claim C10: for a non-empty live set the archive step succeeds with the
built archive document, whose `total_spent` is the sum of `abs(amount)` over
the transactions and whose per-user totals sum to exactly half of
`total_spent`. -/
theorem archive_userTotals_half (txs : List Transaction) (order : List String)
    (now : Now) (fmtDay : ℤ → String) (store : ArchiveStore) (h : txs ≠ []) :
    (ArchiveMonthlyData txs order now fmtDay store).1
        = Except.ok (archiveOf txs order now fmtDay)
    ∧ (archiveOf txs order now fmtDay).totalSpent
        = (txs.map (fun tx => |tx.amount|)).sum
    ∧ sumValues (archiveOf txs order now fmtDay).userTotals
        = (archiveOf txs order now fmtDay).totalSpent / 2 := by
  have hts : (archiveOf txs order now fmtDay).totalSpent
      = (txs.map (fun tx => |tx.amount|)).sum := by
    show (statsOf fmtDay txs).totalSpent = _
    rw [statsOf, statsOf_totalSpent_aux]
    simp
  have hut : sumValues (archiveOf txs order now fmtDay).userTotals
      = (txs.map (fun tx => |tx.amount / 2|)).sum := by
    show sumValues (txs.foldl totalsStep ([], [])).1 = _
    rw [sumValues_foldl_user]
    simp [sumValues]
  refine ⟨by simp [ArchiveMonthlyData, h], hts, ?_⟩
  rw [hut, hts, sum_map_abs_half]

/-- Witness for `archive_userTotals_half` at `pairTxs`: total spent is 30,
and the user totals (10 and 5) sum to 15 = 30/2. -/
theorem archive_userTotals_half_witness :
    pairTxs ≠ []
    ∧ ((ArchiveMonthlyData pairTxs ["alice", "bob"] sampleNow sampleFmtDay []).1
          = Except.ok (archiveOf pairTxs ["alice", "bob"] sampleNow sampleFmtDay)
      ∧ (archiveOf pairTxs ["alice", "bob"] sampleNow sampleFmtDay).totalSpent
          = (pairTxs.map (fun tx => |tx.amount|)).sum
      ∧ sumValues (archiveOf pairTxs ["alice", "bob"] sampleNow sampleFmtDay).userTotals
          = (archiveOf pairTxs ["alice", "bob"] sampleNow sampleFmtDay).totalSpent / 2) :=
  ⟨by decide,
   archive_userTotals_half pairTxs ["alice", "bob"] sampleNow sampleFmtDay []
     (by decide)⟩

/-- Counterexample to claim C6: when the archive attempt fails (any failure,
including `NoTransactions`) and the fallback `CalculateTotals` recomputation
also fails, `MonthlyReset` returns at part_003 line 292 before the deletion
step, so the deletion of the live records is not attempted. -/
theorem monthlyReset_delete_skipped :
    (MonthlyReset none false true true).deleteAttempted = false
    ∧ (MonthlyReset none false true true).earlyReturn = true :=
  ⟨rfl, rfl⟩

/-- Claim C6 amended: the deletion of all live transaction records is
attempted whenever the archive succeeded or the fallback totals
recomputation succeeded (in particular an export failure never prevents it,
and the `NoTransactions` archive failure alone never prevents it), and a
failed deletion is always reported to the user as a warning; only the
double failure of the archive attempt and of the fallback recomputation
skips the deletion. -/
theorem monthlyReset_delete_isolation (archiveResult : Option MonthlyArchive)
    (fallbackTotalsOk exportOk exportOk2 deleteOk : Bool)
    (h : archiveResult ≠ none ∨ fallbackTotalsOk = true) :
    (MonthlyReset archiveResult fallbackTotalsOk exportOk deleteOk).deleteAttempted
        = true
    ∧ (MonthlyReset archiveResult fallbackTotalsOk exportOk2 deleteOk).deleteAttempted
        = true
    ∧ (MonthlyReset archiveResult fallbackTotalsOk exportOk deleteOk).deleteWarningSent
        = !deleteOk := by
  cases archiveResult with
  | some a => exact ⟨rfl, rfl, rfl⟩
  | none =>
      rcases h with h | h
      · exact absurd rfl h
      · subst h
        exact ⟨rfl, rfl, rfl⟩

/-- Witness for `monthlyReset_delete_isolation`: the archive failed but the
fallback totals succeeded; deletion is attempted whether or not the export
succeeds, and its failure is reported. -/
theorem monthlyReset_delete_isolation_witness :
    ((none : Option MonthlyArchive) ≠ none ∨ (true : Bool) = true)
    ∧ ((MonthlyReset none true true false).deleteAttempted = true
      ∧ (MonthlyReset none true false false).deleteAttempted = true
      ∧ (MonthlyReset none true true false).deleteWarningSent = !false) :=
  ⟨Or.inr rfl, monthlyReset_delete_isolation none true true false false (Or.inr rfl)⟩

/-- Counterexample to claim C7: `SendMonthlyComparison` computes the
month-over-month spending percentage with no zero guard, so with a previous
archive whose `total_spent` is exactly zero the rendered figure is the
artifact of a division by zero, not an "unavailable" marker — the guard
exists only in `GenerateComparisonCSV`. -/
theorem comparison_zero_division_artifact :
    zeroArchive.totalSpent = 0
    ∧ sendMonthlySpendingPercent janArchive zeroArchive
        = GrowthCell.divByZeroArtifact
    ∧ sendMonthlySpendingPercent janArchive zeroArchive ≠ GrowthCell.na :=
  ⟨rfl, rfl, by decide⟩

theorem csvGrowthCell_ne_artifact (c p : ℚ) :
    csvGrowthCell c p ≠ GrowthCell.divByZeroArtifact := by
  unfold csvGrowthCell
  split <;> simp

theorem growthRow_no_artifact (f : MonthlyArchive → ℚ) :
    ∀ (archives : List MonthlyArchive) (cell : GrowthCell),
      cell ∈ growthRow f archives → cell ≠ GrowthCell.divByZeroArtifact := by
  intro archives
  induction archives with
  | nil => intro cell hc; simp [growthRow] at hc
  | cons a rest ih =>
      intro cell hc
      cases rest with
      | nil => simp [growthRow] at hc
      | cons b rest2 =>
          have he : growthRow f (a :: b :: rest2)
              = csvGrowthCell (f b) (f a) :: growthRow f (b :: rest2) := rfl
          rw [he] at hc
          rcases List.mem_cons.mp hc with h | h
          · rw [h]
            exact csvGrowthCell_ne_artifact _ _
          · exact ih cell h

/-- Claim C7 amended: the CSV comparison guards every growth cell — it
renders the percentage formula exactly when the previous metric is nonzero
and the `"N/A"` marker when it is zero, and no cell of a CSV growth row is
ever a division artifact; `SendMonthlyComparison`, by contrast, renders the
percentage by unguarded division, which is an artifact whenever the previous
archive's `total_spent` is zero (see the counterexample) and the correct
percentage whenever it is nonzero. -/
theorem growth_rate_guards (c p q : ℚ) (f : MonthlyArchive → ℚ)
    (archives : List MonthlyArchive) (cell : GrowthCell) (cur prev : MonthlyArchive)
    (hp : p = 0) (hq : q ≠ 0) (hcell : cell ∈ growthRow f archives)
    (hprev : prev.totalSpent ≠ 0) :
    csvGrowthCell c p = GrowthCell.na
    ∧ csvGrowthCell c q = GrowthCell.percent ((c - q) / q * 100)
    ∧ cell ≠ GrowthCell.divByZeroArtifact
    ∧ sendMonthlySpendingPercent cur prev
        = GrowthCell.percent
            ((cur.totalSpent - prev.totalSpent) / prev.totalSpent * 100) := by
  refine ⟨?_, ?_, growthRow_no_artifact f archives cell hcell, ?_⟩
  · simp [csvGrowthCell, hp]
  · simp [csvGrowthCell, hq]
  · simp [sendMonthlySpendingPercent, hprev]

/-- Witness for `growth_rate_guards` over the two sample archives. -/
theorem growth_rate_guards_witness :
    ((0 : ℚ) = 0)
    ∧ ((100 : ℚ) ≠ 0)
    ∧ csvGrowthCell zeroArchive.totalSpent janArchive.totalSpent
        ∈ growthRow (fun a => a.totalSpent) [janArchive, zeroArchive]
    ∧ janArchive.totalSpent ≠ 0
    ∧ (csvGrowthCell 5 0 = GrowthCell.na
      ∧ csvGrowthCell 5 100 = GrowthCell.percent ((5 - 100) / 100 * 100)
      ∧ csvGrowthCell zeroArchive.totalSpent janArchive.totalSpent
          ≠ GrowthCell.divByZeroArtifact
      ∧ sendMonthlySpendingPercent janArchive janArchive
          = GrowthCell.percent
              ((janArchive.totalSpent - janArchive.totalSpent)
                / janArchive.totalSpent * 100)) := by
  have hq : (100 : ℚ) ≠ 0 := by norm_num
  have hprev : janArchive.totalSpent ≠ 0 := by
    show (100 : ℚ) ≠ 0
    norm_num
  have hcell : csvGrowthCell zeroArchive.totalSpent janArchive.totalSpent
      ∈ growthRow (fun a => a.totalSpent) [janArchive, zeroArchive] := by
    simp [growthRow]
  exact ⟨rfl, hq, hcell, hprev,
    growth_rate_guards 5 0 100 (fun a => a.totalSpent) [janArchive, zeroArchive]
      (csvGrowthCell zeroArchive.totalSpent janArchive.totalSpent)
      janArchive janArchive rfl hq hcell hprev⟩

end ExpenseBot
